import Mathlib

/-!
Verification of the embedded-script sandbox of the `phat-function-cli`
repository: a shallow embedding, in Lean 4, of the value marshaler, the
host capability bridge (timers, `pink.hash`, `pink.deriveSecret`,
`pink.httpRequest`), the async counter and the execution controller of
`src/lib/runQuickJs.ts`, `src/lib/sandbox.ts` and
`src/lib/sync-request/index.ts` (with the sandbox wrapper module and the
undici worker), together with proofs of the behavioural properties stated
in the specification.
-/

set_option maxRecDepth 4000

namespace Phat

/-! ## Outstanding-work counter (`src/lib/sandbox.ts`, `createSandbox`)

The sandbox keeps `let asyncProcessesRunning = 0` and mutates it only
through `beginAsyncProcess` / `endAsyncProcess`; `isAsyncProcessRunning`
reports whether it is strictly positive.  The counter is a JS number, so
it is modelled as an `Int` (the guard in `endAsyncProcess` is what keeps
it non-negative, not the type). -/

/-- `beginAsyncProcess`: `asyncProcessesRunning++`. -/
def beginAsyncProcess (n : Int) : Int := n + 1

/-- `endAsyncProcess`: `if (asyncProcessesRunning > 0) asyncProcessesRunning--`. -/
def endAsyncProcess (n : Int) : Int := if n > 0 then n - 1 else n

/-- `isAsyncProcessRunning`: `asyncProcessesRunning > 0`. -/
def isAsyncProcessRunning (n : Int) : Bool := n > 0

/-- One call into the counter: either hook of the async bridge. -/
inductive AsyncEvent where
  | beginEv
  | endEv
deriving Repr, DecidableEq

/-- Apply one begin/end hook call to the counter. -/
def applyAsyncEvent (n : Int) : AsyncEvent → Int
  | .beginEv => beginAsyncProcess n
  | .endEv => endAsyncProcess n

/-- The counter after an arbitrary interleaving of begin/end calls,
starting from the initial value `0` of `createSandbox`. -/
def runAsyncEvents (evs : List AsyncEvent) : Int :=
  evs.foldl applyAsyncEvent 0

theorem applyAsyncEvent_nonneg {n : Int} (h : 0 ≤ n) (e : AsyncEvent) :
    0 ≤ applyAsyncEvent n e := by
  cases e with
  | beginEv => simp only [applyAsyncEvent, beginAsyncProcess]; omega
  | endEv =>
    simp only [applyAsyncEvent, endAsyncProcess]
    split <;> omega

theorem foldl_asyncEvent_nonneg (evs : List AsyncEvent) :
    ∀ n : Int, 0 ≤ n → 0 ≤ evs.foldl applyAsyncEvent n := by
  induction evs with
  | nil => intro n h; simpa using h
  | cons e rest ih =>
    intro n h
    exact ih _ (applyAsyncEvent_nonneg h e)

/-- **C10.** The outstanding-async-process counter of a sandbox Context is
never negative: for every interleaving of `beginAsyncProcess` and
`endAsyncProcess` calls (including more end calls than begin calls) the
counter stays `≥ 0`, and `isAsyncProcessRunning` returns `true` exactly
when the counter is strictly positive. -/
theorem counter_nonneg_and_running_iff (evs : List AsyncEvent) :
    0 ≤ runAsyncEvents evs ∧
      (∀ n : Int, isAsyncProcessRunning n = true ↔ 0 < n) := by
  refine ⟨foldl_asyncEvent_nonneg evs 0 le_rfl, ?_⟩
  intro n
  simp [isAsyncProcessRunning]

/-! ## Timing functions (`src/lib/sync-request/index.ts`, `injectTimingFunctions`)

`injectTimingFunctions` installs `setTimeout` / `setInterval` /
`clearTimeout` / `clearInterval` in the interpreter.  Each timer table
(`timeoutFunctionHandles`, `intervalFunctionHandles`) maps a host timer id
to either a copied interpreter function handle or `null` (the firing
callback overwrites the entry with `null`); ids never seen are absent
(`undefined`).  Disposing a `quickjs-emscripten` handle that is not alive
throws, and calling `.dispose()` on `null`/`undefined` throws, so the
model tracks both the table entry and the liveness of the stored handle
and returns `Except String` with an error for a host-side throw. -/

/-- Liveness of an interpreter function handle held in a timer table. -/
inductive HandleLife where
  | alive
  | stale
deriving Repr, DecidableEq

/-- One entry of a timer table: a held function handle (alive or already
disposed), or `null` (written by the firing callback). -/
inductive TimerEntry where
  | fnHandle (life : HandleLife)
  | nullEntry
deriving Repr, DecidableEq

/-- A timer table (`timeoutFunctionHandles` / `intervalFunctionHandles`):
an association from timer ids to entries; ids not present are
`undefined`. -/
def TimerTable := List (Nat × TimerEntry)

/-- Look a timer id up in a table (property read on the JS object). -/
def lookupTimer (table : TimerTable) (id : Nat) : Option TimerEntry :=
  match table with
  | [] => none
  | (k, e) :: rest => if k = id then some e else lookupTimer rest id

/-- Overwrite the entry of a timer id (property write on the JS object). -/
def setTimer (table : TimerTable) (id : Nat) (e : TimerEntry) : TimerTable :=
  match table with
  | [] => [(id, e)]
  | (k, e') :: rest =>
    if k = id then (k, e) :: rest else (k, e') :: setTimer rest id e

/-- `clearTimeout` as installed by `injectTimingFunctions`: look the id up
in `timeoutFunctionHandles`; when the entry is truthy, call
`cbRemovedTimer()`, dispose the handle and cancel the host timer.  The
table entry is left in place (the source never nulls it here), so the
disposed handle stays reachable; disposing it again throws.  The result
additionally carries the counter after the `cbRemovedTimer` calls that
happened. -/
def clearTimeoutModel (table : TimerTable) (counter : Int) (id : Nat) :
    Except String (TimerTable × Int) :=
  match lookupTimer table id with
  | some (.fnHandle .alive) =>
    .ok (setTimer table id (.fnHandle .stale), endAsyncProcess counter)
  | some (.fnHandle .stale) =>
    .error "Lifetime not alive"
  | some .nullEntry => .ok (table, counter)
  | none => .ok (table, counter)

/-- `clearInterval` as installed by `injectTimingFunctions`.  The source
guards on `if (intervalId)` — the *id*, not the looked-up handle — so for
every truthy id it calls `cbRemovedTimer()` and then
`intervalHandle.dispose()`, even when the entry is `null` (interval
already fired) or absent (never created) or an already-disposed handle. -/
def clearIntervalModel (table : TimerTable) (counter : Int) (id : Nat) :
    Except String (TimerTable × Int) :=
  if id ≠ 0 then
    match lookupTimer table id with
    | some (.fnHandle .alive) =>
      .ok (setTimer table id (.fnHandle .stale), endAsyncProcess counter)
    | some (.fnHandle .stale) =>
      .error "Lifetime not alive"
    | some .nullEntry =>
      .error "cannot read dispose of null"
    | none =>
      .error "cannot read dispose of undefined"
  else .ok (table, counter)

/-- **C7** (the code contradicts the claim).  Double cancellation is not a
no-op: clearing a pending timeout id twice throws on the second call
(`clearTimeout` never nulls the table entry, so the second lookup finds
the already-disposed handle and `dispose()` throws), and `clearInterval`
of an id whose interval already fired throws immediately (the guard tests
the id instead of the handle and then dereferences the `null` entry). -/
theorem clearTwice_throws :
    (clearTimeoutModel [(7, .fnHandle .alive)] 1 7).bind
        (fun s => clearTimeoutModel s.1 s.2 7) = .error "Lifetime not alive" ∧
      clearIntervalModel [(9, .nullEntry)] 0 9 =
        .error "cannot read dispose of null" ∧
      clearTimeoutModel [(7, .nullEntry)] 0 7 = .ok ([(7, .nullEntry)], 0) := by
  refine ⟨rfl, rfl, rfl⟩

/-! ## Timeout cap and the interval repetition cap
(`src/lib/sync-request/index.ts`, `injectTimingFunctions`) -/

/-- The fixed cap of `injectTimingFunctions` (`maxTimeout = 600000`, the
default value; `createSandbox` never passes another). -/
def maxTimeout : Nat := 600000

/-- The delay actually handed to the host timer by `setTimeout` and
`setInterval`: `if (timeout > maxTimeout) timeout = maxTimeout`. -/
def capTimeout (timeout : Int) : Int :=
  if timeout > (maxTimeout : Int) then (maxTimeout : Int) else timeout

/-- `maxRepetitions = 99` in the `setInterval` closure. -/
def maxRepetitions : Nat := 99

/-- Per-interval bookkeeping of the `setInterval` callback closure:
`repetitions`, the number of callback invocations so far (`fires`, for the
claim), and whether the interval force-cancelled itself. -/
structure IntervalState where
  repetitions : Nat
  fires : Nat
  cleared : Bool
deriving Repr, DecidableEq

/-- One host-timer tick of the `setInterval` callback: when not yet
cancelled, `repetitions += 1`, then `vm.callFunction(...)` (counted in
`fires`), then `if (repetitions > maxRepetitions) clearInterval(...)`. -/
def intervalTick (s : IntervalState) : IntervalState :=
  if s.cleared then s
  else
    let reps := s.repetitions + 1
    let f := s.fires + 1
    if reps > maxRepetitions then ⟨reps, f, true⟩ else ⟨reps, f, false⟩

/-- The interval state after `n` host-timer ticks, starting from the
fresh closure state. -/
def runInterval : Nat → IntervalState
  | 0 => ⟨0, 0, false⟩
  | n + 1 => intervalTick (runInterval n)

theorem runInterval_closedForm (n : Nat) :
    runInterval n = if n < 100 then ⟨n, n, false⟩ else ⟨100, 100, true⟩ := by
  induction n with
  | zero => rfl
  | succ n ih =>
    rw [runInterval, ih]
    by_cases h : n < 100
    · by_cases h99 : n + 1 < 100
      · have : ¬ (n + 1 > maxRepetitions) := by unfold maxRepetitions; omega
        simp [h, h99, intervalTick, this]
      · have hn : n = 99 := by omega
        simp [h, h99, intervalTick, hn, maxRepetitions]
    · have h99 : ¬ (n + 1 < 100) := by omega
      simp [h, h99, intervalTick]

/-- **C8, counterexample.** An interval left running fires 100 times, not
at most 99: after 200 host ticks the callback has been invoked 100
times. -/
theorem interval_fires_more_than_99 :
    ¬ ((runInterval 200).fires ≤ 99) := by decide

/-- **C8, amended.** The effective delay of `setTimeout`/`setInterval` is
capped at `maxTimeout = 600000` ms (delays not above the cap pass through
unchanged), and an interval fires at most 100 times: `repetitions` is
incremented and the callback invoked before the cap check, so the
interval force-cancels itself right after its 100th invocation, when
`repetitions` first exceeds `maxRepetitions = 99`. -/
theorem capTimeout_and_interval_cap :
    (∀ t : Int, capTimeout t ≤ 600000 ∧ (t ≤ 600000 → capTimeout t = t)) ∧
      (∀ n : Nat, (runInterval n).fires ≤ 100) ∧
      (runInterval 200).fires = 100 ∧
      (runInterval 200).cleared = true := by
  refine ⟨?_, ?_, by decide, by decide⟩
  · intro t
    constructor
    · unfold capTimeout maxTimeout
      split <;> omega
    · intro h
      unfold capTimeout maxTimeout
      split <;> omega
  · intro n
    rw [runInterval_closedForm]
    split
    · simp only []
      omega
    · simp

/-- Witness for `capTimeout_and_interval_cap`: a 700000 ms delay is
capped, a 5000 ms delay passes through, and the interval observed after
200 ticks fired within the 100-invocation bound. -/
theorem capTimeout_and_interval_cap_witness :
    capTimeout 5000 = 5000 ∧ capTimeout 700000 ≤ 600000 ∧
      (runInterval 200).fires ≤ 100 :=
  ⟨(capTimeout_and_interval_cap.1 5000).2 (by decide),
    (capTimeout_and_interval_cap.1 700000).1,
    capTimeout_and_interval_cap.2.1 200⟩

/-! ## The cryptographic primitives imported from `@polkadot/util-crypto`

`src/lib/runQuickJs.ts` imports `blake2AsU8a`, `sha256AsU8a` and
`keccak256AsU8a` from `@polkadot/util-crypto`.  They are embedded here as
the real algorithms (BLAKE2b per RFC 7693, SHA-256 per FIPS 180-4,
Keccak-256 with the pre-SHA-3 `0x01` padding), over byte lists with
64-bit/32-bit words as `Nat` reduced mod `2^64`/`2^32`. -/

def M64 : Nat := 2 ^ 64

def add64 (a b : Nat) : Nat := (a + b) % M64

def xor64 (a b : Nat) : Nat := a ^^^ b

def rotr64 (x n : Nat) : Nat := ((x >>> n) ||| (x <<< (64 - n))) % M64

def rotl64 (x n : Nat) : Nat := ((x <<< n) ||| (x >>> (64 - n))) % M64

/-- Word read from a word list (out of range reads as 0; never hit on the
index sets used below). -/
def lget (l : List Nat) (i : Nat) : Nat := l.getD i 0

/-- The BLAKE2b initialization vector (RFC 7693 §2.6), in decimal. -/
def blakeIV : List Nat :=
  [7640891576956012808, 13503953896175478587, 4354685564936845355,
   11912009170470909681, 5840696475078001361, 11170449401992604703,
   2270897969802886507, 6620516959819538809]

/-- The BLAKE2 message schedule table (RFC 7693 §2.7). -/
def blakeSigma : List (List Nat) :=
  [[0, 1, 2, 3, 4, 5, 6, 7, 8, 9, 10, 11, 12, 13, 14, 15],
   [14, 10, 4, 8, 9, 15, 13, 6, 1, 12, 0, 2, 11, 7, 5, 3],
   [11, 8, 12, 0, 5, 2, 15, 13, 10, 14, 3, 6, 7, 1, 9, 4],
   [7, 9, 3, 1, 13, 12, 11, 14, 2, 6, 5, 10, 4, 0, 15, 8],
   [9, 0, 5, 7, 2, 4, 10, 15, 14, 1, 11, 12, 6, 8, 3, 13],
   [2, 12, 6, 10, 0, 11, 8, 3, 4, 13, 7, 5, 15, 14, 1, 9],
   [12, 5, 1, 15, 14, 13, 4, 10, 0, 7, 6, 3, 9, 2, 8, 11],
   [13, 11, 7, 14, 12, 1, 3, 9, 5, 0, 15, 4, 8, 6, 2, 10],
   [6, 15, 14, 9, 11, 3, 0, 8, 12, 2, 13, 7, 1, 4, 10, 5],
   [10, 2, 8, 4, 7, 6, 1, 5, 15, 11, 9, 14, 3, 12, 13, 0]]

/-- The BLAKE2b mixing function G (RFC 7693 §3.1). -/
def blakeG (v : List Nat) (a b c d x y : Nat) : List Nat :=
  let va := add64 (add64 (lget v a) (lget v b)) x
  let vd := rotr64 (xor64 (lget v d) va) 32
  let vc := add64 (lget v c) vd
  let vb := rotr64 (xor64 (lget v b) vc) 24
  let va2 := add64 (add64 va vb) y
  let vd2 := rotr64 (xor64 vd va2) 16
  let vc2 := add64 vc vd2
  let vb2 := rotr64 (xor64 vb vc2) 63
  ((((v.set a va2).set b vb2).set c vc2).set d vd2)

/-- One BLAKE2b round over the 16-word work vector. -/
def blakeRound (m v : List Nat) (s : List Nat) : List Nat :=
  let g := fun (v : List Nat) (a b c d i j : Nat) =>
    blakeG v a b c d (lget m (lget s i)) (lget m (lget s j))
  let v := g v 0 4 8 12 0 1
  let v := g v 1 5 9 13 2 3
  let v := g v 2 6 10 14 4 5
  let v := g v 3 7 11 15 6 7
  let v := g v 0 5 10 15 8 9
  let v := g v 1 6 11 12 10 11
  let v := g v 2 7 8 13 12 13
  let v := g v 3 4 9 14 14 15
  v

/-- A (zero-padded) 128-byte block as 16 little-endian 64-bit words. -/
def blockWordsLE (block : List Nat) : List Nat :=
  (List.range 16).map fun i =>
    (List.range 8).foldl (fun acc j => acc + (block.getD (8 * i + j) 0) <<< (8 * j)) 0

/-- The BLAKE2b compression function F (RFC 7693 §3.2). -/
def blakeCompress (h m : List Nat) (t : Nat) (last : Bool) : List Nat :=
  let v0 := h ++ blakeIV
  let v1 := v0.set 12 (xor64 (lget v0 12) (t % M64))
  let v2 := v1.set 13 (xor64 (lget v1 13) (t / M64 % M64))
  let v3 := if last then v2.set 14 (xor64 (lget v2 14) (M64 - 1)) else v2
  let v := (List.range 12).foldl (fun v r => blakeRound m v (blakeSigma.getD (r % 10) [])) v3
  (List.range 8).map fun i => xor64 (xor64 (lget h i) (lget v i)) (lget v (i + 8))

/-- Absorb the message 128 bytes at a time; the final (possibly partial,
possibly empty) block is compressed with the finalization flag.  The
`fuel` argument (always called with at least the block count, so the
base case is only reached on the final block) makes the recursion
structural, so that proofs can evaluate the function by kernel
reduction. -/
def blake2bAux (fuel : Nat) (h : List Nat) (rem : List Nat) (done : Nat) : List Nat :=
  match fuel with
  | 0 => blakeCompress h (blockWordsLE rem) (done + rem.length) true
  | fuel + 1 =>
    if rem.length ≤ 128 then
      blakeCompress h (blockWordsLE rem) (done + rem.length) true
    else
      blake2bAux fuel (blakeCompress h (blockWordsLE (rem.take 128)) (done + 128) false)
        (rem.drop 128) (done + 128)

/-- A 64-bit word as 8 little-endian bytes. -/
def wordBytesLE (w : Nat) : List Nat :=
  (List.range 8).map fun i => (w >>> (8 * i)) % 256

/-- Unkeyed BLAKE2b with digest length `outlen` bytes. -/
def blake2b (outlen : Nat) (data : List Nat) : List Nat :=
  let h0 := blakeIV.set 0 (xor64 (xor64 (lget blakeIV 0) 0x01010000) outlen)
  let h := blake2bAux (data.length / 128 + 1) h0 data 0
  ((h.map wordBytesLE).flatten).take outlen

/-- `blake2AsU8a(data, bitLength)` of `@polkadot/util-crypto`: unkeyed
BLAKE2b with a `bitLength / 8`-byte digest.  The library default for
`bitLength` is 256; call sites that pass no second argument are embedded
as `blake2AsU8a data 256`. -/
def blake2AsU8a (data : List Nat) (bitLength : Nat) : List Nat :=
  blake2b (bitLength / 8) data

def M32 : Nat := 2 ^ 32

def add32 (a b : Nat) : Nat := (a + b) % M32

def rotr32 (x n : Nat) : Nat := ((x >>> n) ||| (x <<< (32 - n))) % M32

/-- The SHA-256 round constants (FIPS 180-4 §4.2.2), in decimal. -/
def shaK : List Nat :=
  [1116352408, 1899447441, 3049323471, 3921009573, 961987163, 1508970993,
   2453635748, 2870763221, 3624381080, 310598401, 607225278, 1426881987,
   1925078388, 2162078206, 2614888103, 3248222580, 3835390401, 4022224774,
   264347078, 604807628, 770255983, 1249150122, 1555081692, 1996064986,
   2554220882, 2821834349, 2952996808, 3210313671, 3336571891, 3584528711,
   113926993, 338241895, 666307205, 773529912, 1294757372, 1396182291,
   1695183700, 1986661051, 2177026350, 2456956037, 2730485921, 2820302411,
   3259730800, 3345764771, 3516065817, 3600352804, 4094571909, 275423344,
   430227734, 506948616, 659060556, 883997877, 958139571, 1322822218,
   1537002063, 1747873779, 1955562222, 2024104815, 2227730452, 2361852424,
   2428436474, 2756734187, 3204031479, 3329325298]

/-- The SHA-256 initial hash value (FIPS 180-4 §5.3.3), in decimal. -/
def shaH0 : List Nat :=
  [1779033703, 3144134277, 1013904242, 2773480762,
   1359893119, 2600822924, 528734635, 1541459225]

/-- SHA-256 padding: `0x80`, zeros to 56 mod 64, 8-byte big-endian bit
length. -/
def shaPad (msg : List Nat) : List Nat :=
  let len := msg.length
  let zeros := (64 - ((len + 9) % 64)) % 64
  msg ++ [0x80] ++ List.replicate zeros 0 ++
    ((List.range 8).map fun i => ((len * 8) >>> (8 * (7 - i))) % 256)

/-- A 64-byte block as 16 big-endian 32-bit words. -/
def blockWordsBE (block : List Nat) : List Nat :=
  (List.range 16).map fun i =>
    (List.range 4).foldl (fun acc j => acc * 256 + block.getD (4 * i + j) 0) 0

/-- Extend the 16 block words to the 64-word message schedule. -/
def shaSchedule (w : List Nat) : List Nat :=
  (List.range 48).foldl
    (fun w _ =>
      let i := w.length
      let w15 := lget w (i - 15)
      let w2 := lget w (i - 2)
      let s0 := xor64 (xor64 (rotr32 w15 7) (rotr32 w15 18)) (w15 >>> 3)
      let s1 := xor64 (xor64 (rotr32 w2 17) (rotr32 w2 19)) (w2 >>> 10)
      w ++ [add32 (add32 (lget w (i - 16)) s0) (add32 (lget w (i - 7)) s1)])
    w

/-- The SHA-256 compression function on one 64-byte block. -/
def shaCompress (h : List Nat) (block : List Nat) : List Nat :=
  let w := shaSchedule (blockWordsBE block)
  let step := fun (st : List Nat) (i : Nat) =>
    match st with
    | [a, b, c, d, e, f, g, hh] =>
      let s1 := xor64 (xor64 (rotr32 e 6) (rotr32 e 11)) (rotr32 e 25)
      let ch := xor64 (e &&& f) ((e ^^^ (M32 - 1)) &&& g)
      let t1 := add32 (add32 (add32 hh s1) (add32 ch (lget shaK i))) (lget w i)
      let s0 := xor64 (xor64 (rotr32 a 2) (rotr32 a 13)) (rotr32 a 22)
      let mj := xor64 (xor64 (a &&& b) (a &&& c)) (b &&& c)
      let t2 := add32 s0 mj
      [add32 t1 t2, a, b, c, add32 d t1, e, f, g]
    | st => st
  let fin := (List.range 64).foldl step h
  (List.range 8).map fun i => add32 (lget h i) (lget fin i)

/-- Split a padded message into 64-byte blocks (structural fuel
recursion; the fuel is always at least the block count). -/
def shaBlocks (fuel : Nat) (msg : List Nat) : List (List Nat) :=
  match fuel with
  | 0 => [msg]
  | fuel + 1 =>
    if msg.length ≤ 64 then [msg]
    else msg.take 64 :: shaBlocks fuel (msg.drop 64)

/-- `sha256AsU8a` of `@polkadot/util-crypto`: SHA-256. -/
def sha256AsU8a (data : List Nat) : List Nat :=
  let padded := shaPad data
  let blocks := shaBlocks (padded.length / 64 + 1) padded
  let h := blocks.foldl shaCompress shaH0
  (h.map fun w => (List.range 4).map fun i => (w >>> (8 * (3 - i))) % 256).flatten

/-- The Keccak round constants, in decimal. -/
def keccakRC : List Nat :=
  [1, 32898, 9223372036854808714,
   9223372039002292224, 32907, 2147483649,
   9223372039002292353, 9223372036854808585, 138,
   136, 2147516425, 2147483658,
   2147516555, 9223372036854775947, 9223372036854808713,
   9223372036854808579, 9223372036854808578, 9223372036854775936,
   32778, 9223372039002259466, 9223372039002292353,
   9223372036854808704, 2147483649, 9223372039002292232]

/-- The Keccak ρ rotation offsets, generated by the standard index walk
of the reference specification: starting from lane `(1, 0)`, step `t`
assigns offset `(t+1)(t+2)/2 mod 64` to the current lane and moves to
`(y, (2x+3y) mod 5)`; lane `(0, 0)` keeps offset 0.  Pairs are
`(x + 5*y, offset)`. -/
def keccakRhoPairs : List (Nat × Nat) :=
  ((List.range 24).foldl
    (fun (st : Nat × Nat × List (Nat × Nat)) t =>
      let x := st.1
      let y := st.2.1
      let acc := st.2.2
      (y, (2 * x + 3 * y) % 5, (x + 5 * y, (t + 1) * (t + 2) / 2 % 64) :: acc))
    (1, 0, [])).2.2

/-- Rotation offset of the lane at index `x + 5 * y`. -/
def keccakRhoOf (i : Nat) : Nat :=
  match keccakRhoPairs.find? (fun p => p.1 == i) with
  | some p => p.2
  | none => 0

/-- Keccak θ step on the 25-lane state (lane `(x, y)` at `x + 5 * y`). -/
def keccakTheta (A : List Nat) : List Nat :=
  let C := (List.range 5).map fun x =>
    xor64 (xor64 (xor64 (xor64 (lget A x) (lget A (x + 5))) (lget A (x + 10)))
      (lget A (x + 15))) (lget A (x + 20))
  let D := (List.range 5).map fun x =>
    xor64 (lget C ((x + 4) % 5)) (rotl64 (lget C ((x + 1) % 5)) 1)
  (List.range 25).map fun i => xor64 (lget A i) (lget D (i % 5))

/-- Keccak ρ and π steps combined. -/
def keccakRhoPi (A : List Nat) : List Nat :=
  (List.range 25).foldl
    (fun B i =>
      let x := i % 5
      let y := i / 5
      B.set (y + 5 * ((2 * x + 3 * y) % 5)) (rotl64 (lget A i) (keccakRhoOf i)))
    (List.replicate 25 0)

/-- Keccak χ step. -/
def keccakChi (B : List Nat) : List Nat :=
  (List.range 25).map fun i =>
    let x := i % 5
    let y := i / 5
    xor64 (lget B i)
      ((xor64 (lget B ((x + 1) % 5 + 5 * y)) (M64 - 1)) &&& lget B ((x + 2) % 5 + 5 * y))

/-- The Keccak-f[1600] permutation: 24 rounds of θ, ρ, π, χ, ι. -/
def keccakF (A : List Nat) : List Nat :=
  (List.range 24).foldl
    (fun A r =>
      let A := keccakChi (keccakRhoPi (keccakTheta A))
      A.set 0 (xor64 (lget A 0) (lget keccakRC r)))
    A

/-- Pre-SHA-3 Keccak padding for rate 136: `0x01 … 0x80` (`0x81` when a
single byte closes the block). -/
def keccakPad (msg : List Nat) : List Nat :=
  let p := 136 - msg.length % 136
  if p = 1 then msg ++ [0x81]
  else msg ++ [0x01] ++ List.replicate (p - 2) 0 ++ [0x80]

/-- Split a padded message into 136-byte rate blocks (structural fuel
recursion; the fuel is always at least the block count). -/
def keccakBlocks (fuel : Nat) (msg : List Nat) : List (List Nat) :=
  match fuel with
  | 0 => [msg]
  | fuel + 1 =>
    if msg.length ≤ 136 then [msg]
    else msg.take 136 :: keccakBlocks fuel (msg.drop 136)

/-- Absorb one 136-byte block into the state and permute. -/
def keccakAbsorb (A : List Nat) (block : List Nat) : List Nat :=
  let lanes := (List.range 17).map fun i =>
    (List.range 8).foldl (fun acc j => acc + (block.getD (8 * i + j) 0) <<< (8 * j)) 0
  keccakF ((List.range 25).map fun i =>
    if i < 17 then xor64 (lget A i) (lget lanes i) else lget A i)

/-- `keccak256AsU8a` of `@polkadot/util-crypto`: Keccak-256 (Ethereum
variant, `0x01` domain padding). -/
def keccak256AsU8a (data : List Nat) : List Nat :=
  let padded := keccakPad data
  let A := (keccakBlocks (padded.length / 136 + 1) padded).foldl keccakAbsorb
    (List.replicate 25 0)
  (((A.take 4).map wordBytesLE).flatten)

/-- Validation of the SHA-256 embedding on the FIPS "abc" vector. -/
theorem sha256_abc_vector :
    sha256AsU8a [97, 98, 99] =
      [0xba, 0x78, 0x16, 0xbf, 0x8f, 0x01, 0xcf, 0xea, 0x41, 0x41, 0x40, 0xde,
       0x5d, 0xae, 0x22, 0x23, 0xb0, 0x03, 0x61, 0xa3, 0x96, 0x17, 0x7a, 0x9c,
       0xb4, 0x10, 0xff, 0x61, 0xf2, 0x00, 0x15, 0xad] := by decide

/-- Validation of the Keccak-256 embedding on the empty-input vector. -/
theorem keccak256_empty_vector :
    keccak256AsU8a [] =
      [0xc5, 0xd2, 0x46, 0x01, 0x86, 0xf7, 0x23, 0x3c, 0x92, 0x7e, 0x7d, 0xb2,
       0xdc, 0xc7, 0x03, 0xc0, 0xe5, 0x00, 0xb6, 0x53, 0xca, 0x82, 0x27, 0x3b,
       0x7b, 0xfa, 0xd8, 0x04, 0x5d, 0x85, 0xa4, 0x70] := by decide

/-- Validation of the BLAKE2b embedding on the RFC 7693 "abc" vector
(512-bit digest), and its 256-bit digest of the same message. -/
theorem blake2b_abc_vectors :
    blake2b 64 [97, 98, 99] =
      [0xba, 0x80, 0xa5, 0x3f, 0x98, 0x1c, 0x4d, 0x0d, 0x6a, 0x27, 0x97, 0xb6,
       0x9f, 0x12, 0xf6, 0xe9, 0x4c, 0x21, 0x2f, 0x14, 0x68, 0x5a, 0xc4, 0xb7,
       0x4b, 0x12, 0xbb, 0x6f, 0xdb, 0xff, 0xa2, 0xd1, 0x7d, 0x87, 0xc5, 0x39,
       0x2a, 0xab, 0x79, 0x2d, 0xc2, 0x52, 0xd5, 0xde, 0x45, 0x33, 0xcc, 0x95,
       0x18, 0xd3, 0x8a, 0xa8, 0xdb, 0xf1, 0x92, 0x5a, 0xb9, 0x23, 0x86, 0xed,
       0xd4, 0x00, 0x99, 0x23] ∧
    blake2b 32 [97, 98, 99] =
      [0xbd, 0xdd, 0x81, 0x3c, 0x63, 0x42, 0x39, 0x72, 0x31, 0x71, 0xef, 0x3f,
       0xee, 0x98, 0x57, 0x9b, 0x94, 0x96, 0x4e, 0x3b, 0xb1, 0xcb, 0x3e, 0x42,
       0x72, 0x62, 0xc8, 0xc0, 0x68, 0xd5, 0x23, 0x19] := by
  exact ⟨by decide, by decide⟩

/-! ## `pink.hash` and `pink.deriveSecret` (`src/lib/runQuickJs.ts`) -/

/-- The `hash(algorithm, message)` helper of `src/lib/runQuickJs.ts`
(lines 27–40): a switch over the four supported algorithm names whose
default branch throws `'not supported algorithm: ' + algorithm`; the
thrown error is modelled as the `Except.error` case.  `blake2AsU8a` is
called with no second argument, i.e. the library default `bitLength`
256; `blake2b128` truncates that digest with `.slice(0, 16)`. -/
def hash (algorithm : String) (message : List Nat) : Except String (List Nat) :=
  if algorithm = "blake2b128" then .ok ((blake2AsU8a message 256).take 16)
  else if algorithm = "blake2b256" then .ok (blake2AsU8a message 256)
  else if algorithm = "sha256" then .ok (sha256AsU8a message)
  else if algorithm = "keccak256" then .ok (keccak256AsU8a message)
  else .error ("not supported algorithm: " ++ algorithm)

/-- The closed set of algorithm names `hash` dispatches on. -/
def supportedAlgorithms : List String :=
  ["blake2b128", "blake2b256", "sha256", "keccak256"]

/-- Whether a `hash` call succeeded (the switch did not throw). -/
def hashOk (r : Except String (List Nat)) : Bool :=
  match r with
  | .ok _ => true
  | .error _ => false

/-- `deriveSecret(salt)` of `src/src/lib/runQuickJs.ts` (lines 20–25):
allocate `4 + salt.length` bytes, write `[1, 2, 3, 4]` at offset 0 and
the salt at offset 4 (i.e. prepend the fixed 4-byte tag), then
`blake2AsU8a(buffer)` — the library default `bitLength`, 256. -/
def deriveSecret (salt : List Nat) : List Nat :=
  blake2AsU8a ([1, 2, 3, 4] ++ salt) 256

/-- `deriveSecret(salt)` of the arena-based sandbox source
(`src/unnamed/part_008`, lines 20–28): the same concatenation hashed with
`blake2AsU8a(buffer, 512)`, the 512-bit variant. -/
def deriveSecret512 (salt : List Nat) : List Nat :=
  blake2AsU8a ([1, 2, 3, 4] ++ salt) 512

/-- **C5, counterexample.** In `src/src/lib/runQuickJs.ts`,
`pink.deriveSecret` is not the 512-bit-variant hash of the tagged salt:
already at the empty salt it returns the 32-byte default (256-bit)
digest, not the 64-byte 512-bit one. -/
theorem deriveSecret_not_512_variant :
    deriveSecret [] ≠ blake2AsU8a [1, 2, 3, 4] 512 := by decide

/-- **C5, amended.** Both `deriveSecret` implementations hash the
concatenation of the fixed 4-byte tag `[1, 2, 3, 4]` with the salt and
are pure functions of the salt; the arena-based sandbox source
(`src/unnamed/part_008`) applies the 512-bit BLAKE2b variant as the claim
says, while `src/src/lib/runQuickJs.ts` applies the library-default
256-bit variant. -/
theorem deriveSecret_tagged_blake2b (salt : List Nat) :
    deriveSecret512 salt = blake2AsU8a ([1, 2, 3, 4] ++ salt) 512 ∧
      deriveSecret salt = blake2AsU8a ([1, 2, 3, 4] ++ salt) 256 ∧
      (∀ salt2, salt = salt2 →
        deriveSecret salt = deriveSecret salt2 ∧
          deriveSecret512 salt = deriveSecret512 salt2) := by
  refine ⟨rfl, rfl, ?_⟩
  intro salt2 h
  rw [h]
  exact ⟨rfl, rfl⟩

/-- Witness for `deriveSecret_tagged_blake2b` at the concrete salt
`[9]`. -/
theorem deriveSecret_tagged_blake2b_witness :
    deriveSecret512 [9] = blake2AsU8a [1, 2, 3, 4, 9] 512 ∧
      deriveSecret [9] = deriveSecret [9] :=
  ⟨(deriveSecret_tagged_blake2b [9]).1,
    ((deriveSecret_tagged_blake2b [9]).2.2 [9] rfl).1⟩

/-- **C6.** `pink.hash` dispatches on exactly the closed algorithm set
`{blake2b128, blake2b256, sha256, keccak256}`: a call succeeds iff the
algorithm is in the set; `hash "blake2b128" m` is the 16-byte truncation
of `hash "blake2b256" m` for every message; and every name outside the
set makes the switch throw the script-visible
`not supported algorithm` error. -/
theorem hash_closed_dispatch (alg : String) (m : List Nat) :
    (hashOk (hash alg m) = true ↔ alg ∈ supportedAlgorithms) ∧
      hash "blake2b128" m = (hash "blake2b256" m).map (List.take 16) ∧
      (alg ∉ supportedAlgorithms →
        hash alg m = .error ("not supported algorithm: " ++ alg)) := by
  refine ⟨?_, rfl, ?_⟩
  · unfold hash supportedAlgorithms
    split_ifs with h1 h2 h3 h4 <;>
      simp_all [hashOk]
  · intro hout
    unfold hash
    unfold supportedAlgorithms at hout
    simp only [List.mem_cons, List.mem_singleton, List.not_mem_nil] at hout
    push_neg at hout
    rw [if_neg hout.1, if_neg hout.2.1, if_neg hout.2.2.1, if_neg hout.2.2.2.1]

/-- Witness for `hash_closed_dispatch`: the unknown name `md5` throws,
and on the message `"abc"` the 128-bit digest is the truncation of the
256-bit digest. -/
theorem hash_closed_dispatch_witness :
    hash "md5" [97] = .error "not supported algorithm: md5" ∧
      hash "blake2b128" [97, 98, 99] =
        (hash "blake2b256" [97, 98, 99]).map (List.take 16) :=
  ⟨(hash_closed_dispatch "md5" [97]).2.2 (by decide),
    (hash_closed_dispatch "x" [97, 98, 99]).2.1⟩

/-! ## The value marshaler
(`src/lib/sync-request/index.ts` wrapper module: `wrap`, `wrapObject`,
`wrapArray`)

Host values are the JS values the sandbox marshals: `null`, `undefined`,
booleans, numbers (modelled as integers; no claim depends on float
rounding), big integers, strings, byte buffers (`Uint8Array`), arrays
and plain objects.  Function and promise values are bridged through
`wrapGenericFunction`/`wrapPromise` and sit outside the round-trip value
universe of the claim.  The mutual `HostValues`/`HostFields` lists make
the nesting structural for recursion and induction. -/

mutual

inductive HostValue where
  | vNull
  | vUndefined
  | vBool (b : Bool)
  | vNum (n : Int)
  | vBigInt (n : Int)
  | vStr (s : String)
  | vBytes (bs : List Nat)
  | vArr (elems : HostValues)
  | vObj (fields : HostFields)

inductive HostValues where
  | nil
  | cons (head : HostValue) (tail : HostValues)

inductive HostFields where
  | fnil
  | fcons (key : String) (val : HostValue) (tail : HostFields)

end

mutual

inductive IValue where
  | iNull
  | iUndefined
  | iBool (b : Bool)
  | iNum (n : Int)
  | iBigInt (n : Int)
  | iStr (s : String)
  | iArr (elems : IValues)
  | iObj (fields : IFields)

inductive IValues where
  | inil
  | icons (head : IValue) (tail : IValues)

inductive IFields where
  | ifnil
  | ifcons (key : String) (val : IValue) (tail : IFields)

end

/-- The outcome of one `wrap(vm, value, …)` call: a fresh interpreter
handle, the host value `null` (what `wrap` returns for host `null` — not
a handle at all), or a host-side throw during marshaling. -/
inductive WrapResult where
  | handle (iv : IValue)
  | hostNull
  | fault

/-- Index keys of a `Uint8Array`, as enumerated by `for (const key in
obj)` inside `wrapObject`: `("0", b0), ("1", b1), …`, each value a
number, each marshaled by the number arm of `wrap`. -/
def byteIFields (bs : List Nat) (i : Nat) : IFields :=
  match bs with
  | [] => .ifnil
  | b :: rest => .ifcons (toString i) (.iNum (Int.ofNat b)) (byteIFields rest (i + 1))

mutual

/-- `wrap(vm, value, context, beginAsyncProcess, endAsyncProcess)`: the
dispatch chain of the source in order — `null` is returned as host
`null` (no handle is created); arrays go to `wrapArray`; every other
`typeof value === 'object'` (plain objects and `Uint8Array`s alike) goes
to `wrapObject`; strings, numbers, bigints, booleans and `undefined` map
to the corresponding interpreter handles. -/
def wrapV : HostValue → WrapResult
  | .vNull => .hostNull
  | .vArr xs => wrapVs xs
  | .vObj fs =>
    match wrapFs fs with
    | some ifs => .handle (.iObj ifs)
    | none => .fault
  | .vBytes bs => .handle (.iObj (byteIFields bs 0))
  | .vStr s => .handle (.iStr s)
  | .vNum n => .handle (.iNum n)
  | .vBigInt n => .handle (.iBigInt n)
  | .vBool b => .handle (.iBool b)
  | .vUndefined => .handle .iUndefined

/-- `wrapArray`: wraps every element and `setProp`s it at its index with
no null check, so an element marshaled to host `null` crashes the
marshal (`vm.setProp(vmArray, i, null)` throws); a nested fault
propagates. -/
def wrapVs : HostValues → WrapResult
  | .nil => .handle (.iArr .inil)
  | .cons x xs =>
    match wrapV x with
    | .fault => .fault
    | .hostNull => .fault
    | .handle iv =>
      match wrapVs xs with
      | .handle (.iArr ivs) => .handle (.iArr (.icons iv ivs))
      | _ => .fault

/-- `wrapObject`: wraps every enumerable property value and `setProp`s it
under its key, but only `if (wrappedValue !== null)` — a property whose
value marshals to host `null` is silently dropped; a nested fault
propagates. -/
def wrapFs : HostFields → Option IFields
  | .fnil => some .ifnil
  | .fcons k v rest =>
    match wrapV v with
    | .fault => none
    | .hostNull => wrapFs rest
    | .handle iv =>
      match wrapFs rest with
      | some ifs => some (.ifcons k iv ifs)
      | none => none

end

mutual

/-- Modelled from the spec: `toHost` — the host-side unmarshal direction
(`vm.dump` of the `quickjs-emscripten` library, which is not part of this
repository's sources).  Per the spec's Marshaler contract it reads an
interpreter value structurally back into the corresponding host value;
note it can only ever produce plain objects for object handles (there is
no typed-array read-back in the wrapper path). -/
def dumpV : IValue → HostValue
  | .iNull => .vNull
  | .iUndefined => .vUndefined
  | .iBool b => .vBool b
  | .iNum n => .vNum n
  | .iBigInt n => .vBigInt n
  | .iStr s => .vStr s
  | .iArr xs => .vArr (dumpVs xs)
  | .iObj fs => .vObj (dumpFs fs)

def dumpVs : IValues → HostValues
  | .inil => .nil
  | .icons x xs => .cons (dumpV x) (dumpVs xs)

def dumpFs : IFields → HostFields
  | .ifnil => .fnil
  | .ifcons k v rest => .fcons k (dumpV v) (dumpFs rest)

end

mutual

/-- Host values that survive the round trip: built from `undefined`,
booleans, numbers, big integers and strings by nesting arrays and
objects — no `null` and no byte buffer anywhere. -/
def cleanV : HostValue → Bool
  | .vNull => false
  | .vBytes _ => false
  | .vArr xs => cleanVs xs
  | .vObj fs => cleanFs fs
  | .vUndefined => true
  | .vBool _ => true
  | .vNum _ => true
  | .vBigInt _ => true
  | .vStr _ => true

def cleanVs : HostValues → Bool
  | .nil => true
  | .cons x xs => cleanV x && cleanVs xs

def cleanFs : HostFields → Bool
  | .fnil => true
  | .fcons _ v rest => cleanV v && cleanFs rest

end

mutual

theorem roundtripV (v : HostValue) (h : cleanV v = true) :
    ∃ iv, wrapV v = .handle iv ∧ dumpV iv = v := by
  cases v with
  | vNull => exact absurd h (by simp [cleanV])
  | vBytes bs => exact absurd h (by simp [cleanV])
  | vUndefined => exact ⟨.iUndefined, rfl, rfl⟩
  | vBool b => exact ⟨.iBool b, rfl, rfl⟩
  | vNum n => exact ⟨.iNum n, rfl, rfl⟩
  | vBigInt n => exact ⟨.iBigInt n, rfl, rfl⟩
  | vStr s => exact ⟨.iStr s, rfl, rfl⟩
  | vArr xs =>
    obtain ⟨ivs, hw, hd⟩ := roundtripVs xs (by simpa [cleanV] using h)
    exact ⟨.iArr ivs, by simp [wrapV, hw], by simp [dumpV, hd]⟩
  | vObj fs =>
    obtain ⟨ifs, hw, hd⟩ := roundtripFs fs (by simpa [cleanV] using h)
    exact ⟨.iObj ifs, by simp [wrapV, hw], by simp [dumpV, hd]⟩

theorem roundtripVs (xs : HostValues) (h : cleanVs xs = true) :
    ∃ ivs, wrapVs xs = .handle (.iArr ivs) ∧ dumpVs ivs = xs := by
  cases xs with
  | nil => exact ⟨.inil, rfl, rfl⟩
  | cons x rest =>
    have hx : cleanV x = true := by
      have := h
      simp [cleanVs, Bool.and_eq_true] at this
      exact this.1
    have hrest : cleanVs rest = true := by
      have := h
      simp [cleanVs, Bool.and_eq_true] at this
      exact this.2
    obtain ⟨iv, hw, hd⟩ := roundtripV x hx
    obtain ⟨ivs, hws, hds⟩ := roundtripVs rest hrest
    refine ⟨.icons iv ivs, ?_, ?_⟩
    · simp [wrapVs, hw, hws]
    · simp [dumpVs, hd, hds]

theorem roundtripFs (fs : HostFields) (h : cleanFs fs = true) :
    ∃ ifs, wrapFs fs = some ifs ∧ dumpFs ifs = fs := by
  cases fs with
  | fnil => exact ⟨.ifnil, rfl, rfl⟩
  | fcons k v rest =>
    have hv : cleanV v = true := by
      have := h
      simp [cleanFs, Bool.and_eq_true] at this
      exact this.1
    have hrest : cleanFs rest = true := by
      have := h
      simp [cleanFs, Bool.and_eq_true] at this
      exact this.2
    obtain ⟨iv, hw, hd⟩ := roundtripV v hv
    obtain ⟨ifs, hws, hds⟩ := roundtripFs rest hrest
    have hnn : wrapV v ≠ .hostNull := by
      rw [hw]
      intro hc
      cases hc
    refine ⟨.ifcons k iv ifs, ?_, ?_⟩
    · simp [wrapFs, hw, hws]
    · simp [dumpFs, hd, hds]

end

/-- **C2, amended.** For every host value built from `undefined`,
booleans, numbers, big integers, strings, and nested arrays/objects of
those, unmarshaling the handle produced by marshaling yields the
original value (`null` and `undefined` stay distinct interpreter values
where both are marshalable).  `null` and byte buffers are excluded: see
the counterexample. -/
theorem marshal_roundtrip (v : HostValue) (h : cleanV v = true) :
    ∃ iv, wrapV v = .handle iv ∧ dumpV iv = v :=
  roundtripV v h

/-- Witness for `marshal_roundtrip` at the concrete nested value
`{a: "x", b: [1, 2n, undefined, true]}`. -/
theorem marshal_roundtrip_witness :
    cleanV (.vObj (.fcons "a" (.vStr "x")
        (.fcons "b" (.vArr (.cons (.vNum 1) (.cons (.vBigInt 2)
          (.cons .vUndefined (.cons (.vBool true) .nil))))) .fnil))) = true ∧
      ∃ iv,
        wrapV (.vObj (.fcons "a" (.vStr "x")
            (.fcons "b" (.vArr (.cons (.vNum 1) (.cons (.vBigInt 2)
              (.cons .vUndefined (.cons (.vBool true) .nil))))) .fnil))) =
          .handle iv ∧
        dumpV iv = (.vObj (.fcons "a" (.vStr "x")
            (.fcons "b" (.vArr (.cons (.vNum 1) (.cons (.vBigInt 2)
              (.cons .vUndefined (.cons (.vBool true) .nil))))) .fnil))) :=
  ⟨rfl, marshal_roundtrip _ rfl⟩

/-- **C2, counterexample.** The round trip fails on the supported kinds
`null` and bytes: marshaling the object `{a: null}` silently drops the
property (`wrap` returns host `null` for the value and `wrapObject`
skips it), so it unmarshals to `{}`, not `{a: null}`; and a byte buffer
`Uint8Array([5])` marshals through `wrapObject` to the plain object
`{"0": 5}`, which unmarshals to a plain object, not a byte buffer.
Top-level `null` yields no interpreter handle at all. -/
theorem marshal_roundtrip_fails_on_null_and_bytes :
    wrapV (.vObj (.fcons "a" .vNull .fnil)) = .handle (.iObj .ifnil) ∧
      dumpV (.iObj .ifnil) = .vObj .fnil ∧
      (.vObj .fnil : HostValue) ≠ .vObj (.fcons "a" .vNull .fnil) ∧
      wrapV (.vBytes [5]) = .handle (.iObj (.ifcons "0" (.iNum 5) .ifnil)) ∧
      dumpV (.iObj (.ifcons "0" (.iNum 5) .ifnil)) =
        .vObj (.fcons "0" (.vNum 5) .fnil) ∧
      (.vObj (.fcons "0" (.vNum 5) .fnil) : HostValue) ≠ .vBytes [5] ∧
      wrapV .vNull = .hostNull := by
  refine ⟨rfl, rfl, ?_, rfl, rfl, ?_, rfl⟩
  · intro hc
    have := HostValue.vObj.inj hc
    cases this
  · intro hc
    cases hc

/-! ## `pink.httpRequest`: the synchronous request path
(`src/lib/runQuickJs.ts` `syncRequest`, `src/lib/sync-request` worker) -/

/-- `isHexString` of `src/lib/runQuickJs.ts` (lines 11–14): the regex
`/^0x[0-9a-f]+$/` tested against the lowercased string. -/
def isHexString (s : String) : Bool :=
  let t := s.toLower
  t.startsWith "0x" && (t.drop 2).length > 0 &&
    (t.drop 2).toList.all fun c => c.isDigit || ('a' ≤ c && c ≤ 'f')

/-- Value of one hex digit (Node's decoder is case-insensitive). -/
def hexVal (c : Char) : Nat :=
  if c.isDigit then c.toNat - 48
  else if 'a' ≤ c ∧ c ≤ 'f' then c.toNat - 87
  else if 'A' ≤ c ∧ c ≤ 'F' then c.toNat - 55
  else 0

/-- Byte pairs of a hex string (`Buffer.from(hex, 'hex')`; a trailing
half pair is ignored, as in Node). -/
def hexPairBytes : List Char → List Nat
  | c1 :: c2 :: rest => (16 * hexVal c1 + hexVal c2) :: hexPairBytes rest
  | _ => []

/-- `hexToString` of `src/lib/runQuickJs.ts` (lines 16–18):
`Buffer.from(hex.substring(2), 'hex').toString()`.  The byte-to-string
read-back is modelled one byte per character. -/
def hexToString (hex : String) : String :=
  String.mk ((hexPairBytes (hex.drop 2).toList).map Char.ofNat)

/-- The options `syncRequest` hands to the sync-request worker. -/
structure WorkerOptions where
  url : String
  method : String
  headers : List (String × String)
  body : Option String
  timeout : Nat
deriving Repr, DecidableEq

/-- `syncRequest` of `src/lib/runQuickJs.ts` (lines 42–58): decode a
hex-looking string body to raw bytes, default the method to `GET`, and
fix the request-level timeout at 10 (seconds). -/
def syncRequest (url : String) (method : Option String)
    (headers : List (String × String)) (body : Option String) : WorkerOptions :=
  let body := match body with
    | some s => if isHexString s then some (hexToString s) else some s
    | none => none
  { url := url, method := method.getD "GET", headers := headers,
    body := body, timeout := 10 }

/-- The worker's timeout promise delay: `options.timeout * 1000` ms. -/
def workerTimeoutMs (opts : WorkerOptions) : Nat := opts.timeout * 1000

/-- What the raced undici request settles to, as seen by the worker's
`try` block: a response, a network failure (its error message), or the
timeout promise winning the race. -/
inductive NetworkOutcome where
  | success (statusCode : Nat) (body : String) (headers : List (String × String))
  | failure (message : String)
  | timedOut
deriving Repr, DecidableEq

/-- The HTTP response object the worker returns to the script side. -/
structure HttpResponse where
  statusCode : Nat
  reasonPhrase : String
  body : String
  headers : List (String × String)
deriving Repr, DecidableEq

/-- The `await Promise.race([requestPromise, timeoutPromise])` step: the
timeout promise rejects with `new Error('Timeout')`, a network failure
rejects with its own message. -/
def attemptRequest : NetworkOutcome → Except String (Nat × String × List (String × String))
  | .success sc body headers => .ok (sc, body, headers)
  | .failure m => .error m
  | .timedOut => .error "Timeout"

/-- The sync-request worker (the undici module appended to
`src/lib/sandbox.ts`, `init`, lines 167–196): the whole request sits in
a `try`/`catch` whose catch arm returns `{statusCode: 524, reasonPhrase:
'IO Error', body: error.message, headers: {}}`, so the worker always
returns a response and never throws into the script. -/
def workerRequest (o : NetworkOutcome) : HttpResponse :=
  match attemptRequest o with
  | .ok (sc, body, headers) =>
    { statusCode := sc, reasonPhrase := toString sc, body := body,
      headers := headers }
  | .error m =>
    { statusCode := 524, reasonPhrase := "IO Error", body := m, headers := [] }

/-- **C4.** For every request whose target is unreachable or which falls
to the fixed request-level timeout (`syncRequest` pins `timeout: 10`,
i.e. a 10000 ms race deadline), `pink.httpRequest` never throws into the
script: the worker's catch arm turns the rejection into a `Response`
with the sentinel status 524 and the error message as body. -/
theorem httpRequest_failure_contained (url : String) (method : Option String)
    (headers : List (String × String)) (body : Option String)
    (o : NetworkOutcome) (h : o = .timedOut ∨ ∃ m, o = .failure m) :
    (workerRequest o).statusCode = 524 ∧
      (workerRequest o).reasonPhrase = "IO Error" ∧
      (∀ m, o = .failure m → (workerRequest o).body = m) ∧
      (o = .timedOut → (workerRequest o).body = "Timeout") ∧
      (syncRequest url method headers body).timeout = 10 ∧
      workerTimeoutMs (syncRequest url method headers body) = 10000 := by
  rcases h with h | ⟨m, h⟩ <;> subst h
  · refine ⟨rfl, rfl, ?_, fun _ => rfl, rfl, rfl⟩
    intro m hm
    cases hm
  · refine ⟨rfl, rfl, ?_, ?_, rfl, rfl⟩
    · intro m2 hm
      cases hm
      rfl
    · intro hm
      cases hm

/-- Witness for `httpRequest_failure_contained`: an unreachable host. -/
theorem httpRequest_failure_contained_witness :
    (workerRequest (.failure "getaddrinfo ENOTFOUND invalid.invalid")).statusCode
        = 524 ∧
      (workerRequest (.failure "getaddrinfo ENOTFOUND invalid.invalid")).body =
        "getaddrinfo ENOTFOUND invalid.invalid" :=
  have h := httpRequest_failure_contained "http://invalid.invalid" none [] none
    (.failure "getaddrinfo ENOTFOUND invalid.invalid")
    (Or.inr ⟨"getaddrinfo ENOTFOUND invalid.invalid", rfl⟩)
  ⟨h.1, h.2.2.1 "getaddrinfo ENOTFOUND invalid.invalid" rfl⟩

/-! ## The execution controller (`src/lib/runQuickJs.ts`, `runQuickJs`) -/

/-- First field of an object with a given key. -/
def lookupField : HostFields → String → Option HostValue
  | .fnil, _ => none
  | .fcons k v rest, key => if k = key then some v else lookupField rest key

/-- JS `String(v)` on the primitive host values (the values a script can
throw besides error objects).  Composite values are summarized the way
`String` summarizes a plain object. -/
def jsToString : HostValue → String
  | .vNull => "null"
  | .vUndefined => "undefined"
  | .vBool b => if b then "true" else "false"
  | .vNum n => toString n
  | .vBigInt n => toString n
  | .vStr s => s
  | .vArr _ => ""
  | .vObj _ => "[object Object]"
  | .vBytes _ => ""

/-- The message of the host error `runQuickJs` throws: the source does
`throw new Error(error.message)` on the dumped interpreter error, so the
message is the dumped object's `message` property (coerced the way
`new Error` coerces a non-string argument, the empty string when the
property is missing or the thrown value is not an object). -/
def errorMessageOf (e : HostValue) : String :=
  match e with
  | .vObj fields =>
    match lookupField fields "message" with
    | some .vUndefined => ""
    | none => ""
    | some (.vStr m) => m
    | some v => jsToString v
  | _ => ""

/-- What one `context.evalCode(code)` call produced: an uncaught
interpreter error value or a result value, together with the value of
the `scriptOutput` global after evaluation. -/
structure Evaluation where
  result : Except IValue IValue
  scriptOutput : IValue

/-- The observable outcome of `runQuickJs`: the returned/thrown value,
and whether each Context resource was released on that path. -/
structure RunOutcome where
  result : Except String HostValue
  resultHandleDisposed : Bool
  arenaDisposed : Bool
  contextDisposed : Bool
  runtimeDisposed : Bool

/-- `runQuickJs` (lines 244–288) after the polyfills and `scriptArgs`
injection: evaluate once — on `result.error`, dump the error, dispose
the error handle, the arena, the context and the runtime, and throw
`new Error(error.message)` (no retry); on success, dispose the result
handle, read the `scriptOutput` global, dump it to a host value, dispose
arena/context/runtime and return it. -/
def runQuickJsModel (ev : Evaluation) : RunOutcome :=
  match ev.result with
  | .error e =>
    { result := .error (errorMessageOf (dumpV e)),
      resultHandleDisposed := true, arenaDisposed := true,
      contextDisposed := true, runtimeDisposed := true }
  | .ok _ =>
    { result := .ok (dumpV ev.scriptOutput),
      resultHandleDisposed := true, arenaDisposed := true,
      contextDisposed := true, runtimeDisposed := true }

/-- **C3, amended.** On an uncaught interpreter error `runQuickJs` fails
fast with a host error whose message is the `message` property of the
dumped interpreter error value (the string message for error objects;
empty for thrown values without one), disposing every Context resource
without retrying; on success it disposes the evaluation result handle,
reads the `scriptOutput` global back, unmarshals it, disposes all
Context resources and returns it. -/
theorem runQuickJs_error_and_success (ev : Evaluation) :
    (∀ e, ev.result = .error e →
      runQuickJsModel ev =
        ⟨.error (errorMessageOf (dumpV e)), true, true, true, true⟩) ∧
      (∀ r, ev.result = .ok r →
        runQuickJsModel ev =
          ⟨.ok (dumpV ev.scriptOutput), true, true, true, true⟩) := by
  constructor
  · intro e he
    unfold runQuickJsModel
    rw [he]
  · intro r hr
    unfold runQuickJsModel
    rw [hr]

/-- Witness for `runQuickJs_error_and_success`: a script throwing
`new Error("boom")` makes `runQuickJs` throw a host error with message
`"boom"`; a script assigning `scriptOutput = "ok"` returns `"ok"`. -/
theorem runQuickJs_error_and_success_witness :
    runQuickJsModel
        ⟨.error (.iObj (.ifcons "name" (.iStr "Error")
          (.ifcons "message" (.iStr "boom") .ifnil))), .iUndefined⟩ =
      ⟨.error "boom", true, true, true, true⟩ ∧
      runQuickJsModel ⟨.ok .iUndefined, .iStr "ok"⟩ =
        ⟨.ok (.vStr "ok"), true, true, true, true⟩ := by
  constructor
  · have h := (runQuickJs_error_and_success
      ⟨.error (.iObj (.ifcons "name" (.iStr "Error")
        (.ifcons "message" (.iStr "boom") .ifnil))), .iUndefined⟩).1
      (.iObj (.ifcons "name" (.iStr "Error")
        (.ifcons "message" (.iStr "boom") .ifnil))) rfl
    exact h
  · have h := (runQuickJs_error_and_success ⟨.ok .iUndefined, .iStr "ok"⟩).2
      .iUndefined rfl
    exact h

/-- **C3, counterexample.** The host error message is not the stringified
interpreter error value: a script that evaluates `throw 42` surfaces as
a host error with the empty message (`(42).message` is `undefined`, and
`new Error(undefined)` has message `""`), not `"42"`. -/
theorem runQuickJs_error_message_not_stringified :
    (runQuickJsModel ⟨.error (.iNum 42), .iUndefined⟩).result = .error "" ∧
      jsToString (dumpV (.iNum 42)) = "42" ∧
      (runQuickJsModel ⟨.error (.iNum 42), .iUndefined⟩).result ≠
        .error (jsToString (dumpV (.iNum 42))) := by
  refine ⟨rfl, rfl, ?_⟩
  intro hc
  have h2 := Except.error.inj hc
  exact absurd h2 (by decide)

/-! ## `console.error` and the sandbox `run` result
(`src/lib/sandbox.ts`, `errorHandle` and `run`) -/

/-- The error-signal state of one sandbox: `errorState` and
`lastError`. -/
structure SandboxLogState where
  errorState : Bool
  lastError : String
deriving Repr, DecidableEq

/-- `JSON.stringify` of the dumped `console.error` arguments, which the
model restricts to escape-free strings. -/
def jsonStringifyStrings (args : List String) : String :=
  "[" ++ String.intercalate "," (args.map fun s => "\"" ++ s ++ "\"") ++ "]"

/-- The `error` console handle of `createSandbox` (lines 58–67): forward
to the host console, then `lastError = JSON.stringify(nativeArgs)` and
`errorState = true`.  Execution continues: the handler returns to the
script. -/
def consoleErrorStep (_st : SandboxLogState) (args : List String) : SandboxLogState :=
  { errorState := true, lastError := jsonStringifyStrings args }

/-- The observable behaviour of evaluating one compiled script in the
sandbox: the `console.error` calls it makes, in order, and its
evaluation result (`some` dumped error, or `none` for success). -/
structure ScriptBehavior where
  errorCalls : List (List String)
  evalError : Option String

/-- `run(compiled)` of `createSandbox` (lines 125–157): reset
`errorState`, evaluate (each `console.error` call fires
`consoleErrorStep`), and return `false` on an evaluation error or
`!errorState` on success. -/
def runSandbox (b : ScriptBehavior) : Bool × SandboxLogState :=
  let st := b.errorCalls.foldl consoleErrorStep ⟨false, ""⟩
  match b.evalError with
  | some _ => (false, st)
  | none => (!st.errorState, st)

theorem foldl_consoleError (cs : List (List String)) :
    ∀ (c : List String) (st : SandboxLogState),
      (c :: cs).foldl consoleErrorStep st =
        ⟨true, jsonStringifyStrings (cs.getLastD c)⟩ := by
  induction cs with
  | nil => intro c st; rfl
  | cons c2 cs ih =>
    intro c st
    calc (c :: c2 :: cs).foldl consoleErrorStep st
        = (c2 :: cs).foldl consoleErrorStep (consoleErrorStep st c) := rfl
      _ = ⟨true, jsonStringifyStrings (cs.getLastD c2)⟩ := ih c2 _
      _ = ⟨true, jsonStringifyStrings ((c2 :: cs).getLastD c)⟩ := by
          rw [List.getLastD_cons]

/-- **C9, amended.** `console.error` records the JSON stringification of
its arguments as the last-error string and sets the error-state flag
without halting execution (every later call is still processed, and the
script still runs to completion); but the sandbox's `run` does fail the
call because of the flag: on successful evaluation it returns
`!errorState`, hence `false` whenever `console.error` was called. -/
theorem consoleError_flag_and_run_result (b : ScriptBehavior)
    (hok : b.evalError = none) (c : List String) (cs : List (List String))
    (hcalls : b.errorCalls = c :: cs) :
    (runSandbox b).2.errorState = true ∧
      (runSandbox b).2.lastError = jsonStringifyStrings (cs.getLastD c) ∧
      (runSandbox b).1 = false := by
  unfold runSandbox
  rw [hok, hcalls, foldl_consoleError]
  exact ⟨rfl, rfl, rfl⟩

/-- Witness for `consoleError_flag_and_run_result` on a script that
calls `console.error("oops")` twice (with different arguments) and then
evaluates successfully. -/
theorem consoleError_flag_and_run_result_witness :
    (runSandbox ⟨[["oops"], ["late", "two"]], none⟩).2.errorState = true ∧
      (runSandbox ⟨[["oops"], ["late", "two"]], none⟩).2.lastError =
        jsonStringifyStrings ["late", "two"] ∧
      (runSandbox ⟨[["oops"], ["late", "two"]], none⟩).1 = false :=
  consoleError_flag_and_run_result ⟨[["oops"], ["late", "two"]], none⟩ rfl
    ["oops"] [["late", "two"]] rfl

/-- **C9, counterexample.** The Controller does fail the call because of
the flag: two scripts that both evaluate successfully, one silent and
one calling `console.error("oops")`, get different `run` results — the
logging one returns `false` purely because `errorState` was set. -/
theorem run_fails_call_on_console_error :
    runSandbox ⟨[["oops"]], none⟩ = (false, ⟨true, "[\"oops\"]"⟩) ∧
      runSandbox ⟨[], none⟩ = (true, ⟨false, ""⟩) := by
  exact ⟨rfl, rfl⟩

/-! ## Outstanding-work gating of the execute entry point -/

/-- A host timer registered by the script: the effective (capped) delay
and the value its callback assigns to the `scriptOutput` global. -/
structure PendingTimer where
  delay : Int
  writes : IValue

/-- The joint state of the interpreter and the async bridge after the
top-level script body returned. -/
structure ExecState where
  counter : Int
  timers : List PendingTimer
  jobsPending : Bool
  scriptOutput : IValue

/-- Registration effect of `setTimeout(fn, t)` in
`injectTimingFunctions`: `cbAddedTimer()` (that is,
`beginAsyncProcess`), and a host timer scheduled with the capped
delay. -/
def registerTimeout (s : ExecState) (writes : IValue) (delay : Int) : ExecState :=
  { s with counter := beginAsyncProcess s.counter,
           timers := s.timers ++ [⟨capTimeout delay, writes⟩] }

/-- Firing of the next host timer (the `setTimeout` callback body in
`injectTimingFunctions`): the table entry is nulled, `cbRemovedTimer()`
(that is, `endAsyncProcess`) runs, the interpreter callback runs
(assigning `scriptOutput`), and `vm.runtime.executePendingJobs()` drains
the job queue.  With no timer left it only pumps the queue. -/
def fireNextTimer (s : ExecState) : ExecState :=
  match s.timers with
  | [] => { s with jobsPending := false }
  | t :: rest =>
    { counter := endAsyncProcess s.counter, timers := rest,
      jobsPending := false, scriptOutput := t.writes }

/-- Modelled from the spec: the Controller's completion gate.  The
repository exposes the counter (`isAsyncProcessRunning`) and the
begin/end hooks but contains no caller of `createSandbox`; per the spec,
execution "may only be considered complete once this counter reaches
zero AND the interpreter's job queue is drained", so the driver loops —
letting host timers settle — while either holds. -/
def executeDrive : Nat → ExecState → ExecState
  | 0, s => s
  | fuel + 1, s =>
    if isAsyncProcessRunning s.counter || s.jobsPending then
      executeDrive fuel (fireNextTimer s)
    else s

theorem fireNextTimer_cons (c : Int) (hc : 0 < c) (t : PendingTimer)
    (rest : List PendingTimer) (jobs : Bool) (out : IValue) :
    fireNextTimer ⟨c, t :: rest, jobs, out⟩ = ⟨c - 1, rest, false, t.writes⟩ := by
  unfold fireNextTimer endAsyncProcess
  rw [if_pos hc]

theorem executeDrive_balanced (timers : List PendingTimer) :
    ∀ (jobs : Bool) (out : IValue),
      executeDrive (timers.length + 1) ⟨(timers.length : Int), timers, jobs, out⟩ =
        ⟨0, [], false, (timers.map PendingTimer.writes).getLastD out⟩ := by
  induction timers with
  | nil =>
    intro jobs out
    cases jobs <;> rfl
  | cons t rest ih =>
    intro jobs out
    have hpos : (0 : Int) < ((t :: rest).length : Int) := by
      simp
    have hrun : isAsyncProcessRunning ((t :: rest).length : Int) = true := by
      simp [isAsyncProcessRunning]
    show executeDrive (rest.length + 1 + 1)
        ⟨((t :: rest).length : Int), t :: rest, jobs, out⟩ = _
    rw [executeDrive, hrun, Bool.true_or, if_pos rfl,
      fireNextTimer_cons _ hpos t rest jobs out]
    have hc : ((t :: rest).length : Int) - 1 = (rest.length : Int) := by
      simp only [List.length_cons]
      push_cast
      ring
    rw [hc, ih false t.writes, List.map_cons, List.getLastD_cons]

/-- **C1** (the completion gate is modelled from the spec; the counter,
the timer begin/end hooks and the callback semantics are the
repository's).  A script that registers pending async operations and
returns immediately still has its callbacks' effects visible once the
drive completes: the driver does not stop while
`isAsyncProcessRunning` or jobs are pending, and it ends with the
counter at zero, the queue drained, and `scriptOutput` holding the last
settled callback's value — in particular `42` for
`setTimeout(() => { scriptOutput = 42 }, 10)`. -/
theorem execute_waits_for_outstanding_work :
    (∀ (timers : List PendingTimer) (jobs : Bool) (out : IValue),
      executeDrive (timers.length + 1) ⟨(timers.length : Int), timers, jobs, out⟩ =
        ⟨0, [], false, (timers.map PendingTimer.writes).getLastD out⟩) ∧
      (∀ (v : IValue) (delay : Int),
        executeDrive 2 (registerTimeout ⟨0, [], false, .iUndefined⟩ v delay) =
          ⟨0, [], false, v⟩) ∧
      executeDrive 2 (registerTimeout ⟨0, [], false, .iUndefined⟩ (.iNum 42) 10) =
        ⟨0, [], false, .iNum 42⟩ := by
  refine ⟨executeDrive_balanced, fun v delay => rfl, rfl⟩

end Phat
